import Mathlib

/-!
Verification of the queueflow task registry and worker dispatch engine.

The definitions below are a shallow embedding of the TypeScript sources:
`src/task.ts` (Task / ScheduledTask facades), `src/worker.ts` (the
GlobalWorker dispatch engine) and `src/config.ts` (connection provider,
the variant exporting getSharedRedisConnection / isDebugEnabled that
worker.ts imports).  JavaScript `Map` objects are modelled as
insertion-ordered association lists, the broker's repeatable-job store as
a list of records, and handler callbacks as abstract values together with
an oracle describing the outcome of invoking them.
-/

namespace Queueflow

/-! ### JavaScript `Map` as an insertion-ordered association list -/

/-- `Map.get`: value of the first (and, with unique keys, only) entry. -/
def mapGet {α : Type} : List (String × α) → String → Option α
  | [], _ => none
  | p :: ps, k => if p.1 == k then some p.2 else mapGet ps k

/-- `Map.has`. -/
def mapHas {α : Type} : List (String × α) → String → Bool
  | [], _ => false
  | p :: ps, k => p.1 == k || mapHas ps k

/-- `Map.set`: overwrite in place when the key is present, else append
(JS maps keep insertion order). -/
def mapSet {α : Type} : List (String × α) → String → α → List (String × α)
  | [], k, v => [(k, v)]
  | p :: ps, k, v => if p.1 == k then (k, v) :: ps else p :: mapSet ps k v

theorem mapGet_set_self {α : Type} (m : List (String × α)) (k : String) (v : α) :
    mapGet (mapSet m k v) k = some v := by
  induction m with
  | nil => simp [mapSet, mapGet]
  | cons p ps ih =>
    by_cases hp : p.1 = k
    · simp [mapSet, mapGet, hp]
    · simp [mapSet, mapGet, hp, ih]

theorem mapGet_set_ne {α : Type} (m : List (String × α)) (k k' : String) (v : α)
    (h : k' ≠ k) : mapGet (mapSet m k v) k' = mapGet m k' := by
  induction m with
  | nil => simp [mapSet, mapGet, Ne.symm h]
  | cons p ps ih =>
    by_cases hp : p.1 = k
    · simp [mapSet, mapGet, hp, Ne.symm h]
    · by_cases hq : p.1 = k'
      · simp [mapSet, mapGet, hp, hq, h]
      · simp [mapSet, mapGet, hp, hq, ih]

theorem mapGet_eq_none_of_not_has {α : Type} {m : List (String × α)} {k : String}
    (h : mapHas m k = false) : mapGet m k = none := by
  induction m with
  | nil => rfl
  | cons p ps ih =>
    simp only [mapHas, Bool.or_eq_false_iff] at h
    have hp : ¬ p.1 = k := by simpa using h.1
    simp [mapGet, hp, ih h.2]

theorem mapSet_of_not_has {α : Type} {m : List (String × α)} {k : String}
    (v : α) (h : mapHas m k = false) : mapSet m k v = m ++ [(k, v)] := by
  induction m with
  | nil => rfl
  | cons p ps ih =>
    simp only [mapHas, Bool.or_eq_false_iff] at h
    simp only [mapSet, h.1, List.cons_append]
    rw [if_neg (by simp [h.1]), ih h.2]

/-! ### JSON-like job payloads -/

/-- A JSON value, as carried in BullMQ job data.  The scheduled-task
self-install always enqueues the empty object `JsVal.obj []`. -/
inductive JsVal : Type where
  | obj : List (String × JsVal) → JsVal
  | arr : List JsVal → JsVal
  | str : String → JsVal
  | num : Int → JsVal
  | bool : Bool → JsVal
  | null : JsVal

/-! ### The broker's repeatable-job store

`ScheduledTask.schedule` (task.ts lines 163-193) manipulates the queue's
recurring registrations through three broker operations: list
(`getRepeatableJobs`), cancel (`removeJobScheduler(key)`) and install
(`add(name, data, \x7b repeat, jobId \x7d)`).  A repeatable entry is keyed by
the broker by its (name, jobId, pattern, tz) tuple. -/

structure RepeatableJob : Type where
  name : String
  jobId : String
  pattern : String
  tz : Option String
  data : JsVal

/-- The broker key of a recurring registration (an injective encoding of
name, job id, cron pattern and timezone). -/
def repeatKey (j : RepeatableJob) : String × String × String × Option String :=
  (j.name, j.jobId, j.pattern, j.tz)

/-- The predicate used at task.ts line 178: `job.id === id || job.name === id`. -/
def matchesTask (id : String) (j : RepeatableJob) : Bool :=
  j.jobId == id || j.name == id

/-- `removeJobScheduler key`: cancel the recurring registration with this key. -/
def removeJobScheduler (store : List RepeatableJob)
    (k : String × String × String × Option String) : List RepeatableJob :=
  store.filter (fun j => decide (repeatKey j ≠ k))

/-- Number of recurring registrations installed under a task id. -/
def countMatching (id : String) (store : List RepeatableJob) : Nat :=
  (store.filter (matchesTask id)).length

/-- `ScheduledTask.schedule` (task.ts lines 176-192): list the repeatable
jobs, find one whose id or name equals the task id, remove it if found,
then add a repeatable job with the task id as both name and job id, the
empty object as data, and the declared cron pattern and timezone. -/
def scheduleInstall (id pattern : String) (tz : Option String)
    (store : List RepeatableJob) : List RepeatableJob :=
  let newJob : RepeatableJob := ⟨id, id, pattern, tz, JsVal.obj []⟩
  match store.find? (matchesTask id) with
  | some existingJob => removeJobScheduler store (repeatKey existingJob) ++ [newJob]
  | none => store ++ [newJob]

/-! ### Queue-name resolution (task.ts lines 67-83 and 142-161)

`this.queue = config.queue || config.id.split(".")[0] || getConfig().defaultQueue!`
JavaScript `||` takes the first truthy operand; for strings the only falsy
value is `""`, and an absent option behaves like `""` here.
`id.split(".")[0]` is the substring of `id` before its first `.`
(the whole of `id` when it contains no `.`). -/

/-- JavaScript `a || b` on strings (an absent/undefined `a` is falsy). -/
def jsOrS (a b : String) : String := if a = "" then b else a

/-- `id.split(".")[0]`. -/
def splitHead (id : String) : String :=
  String.mk (id.toList.takeWhile (fun c => c ≠ '.'))

/-- The effective queue of a Task / ScheduledTask declaration. -/
def resolveQueue (queueOpt : Option String) (id defaultQueue : String) : String :=
  jsOrS (queueOpt.getD "") (jsOrS (splitHead id) defaultQueue)

/-! ### Properties of the schedule reconcile-and-install sequence -/

theorem countMatching_append (id : String) (s t : List RepeatableJob) :
    countMatching id (s ++ t) = countMatching id s + countMatching id t := by
  simp [countMatching, List.filter_append]

theorem matchesTask_new (id pattern : String) (tz : Option String) (d : JsVal) :
    matchesTask id ⟨id, id, pattern, tz, d⟩ = true := by
  simp [matchesTask]

/-- With at most one matching entry, any matching member equals the one
returned by `find?`. -/
theorem matching_unique {id : String} {store : List RepeatableJob}
    {ex : RepeatableJob} (h : countMatching id store ≤ 1)
    (hfind : store.find? (matchesTask id) = some ex) :
    ∀ j ∈ store, matchesTask id j = true → j = ex := by
  intro j hj hmatch
  have hexm : matchesTask id ex = true := List.find?_some hfind
  have hexmem : ex ∈ store := List.mem_of_find?_eq_some hfind
  have hjf : j ∈ store.filter (matchesTask id) := List.mem_filter.2 ⟨hj, hmatch⟩
  have hexf : ex ∈ store.filter (matchesTask id) := List.mem_filter.2 ⟨hexmem, hexm⟩
  unfold countMatching at h
  cases hF : store.filter (matchesTask id) with
  | nil => rw [hF] at hjf; cases hjf
  | cons a rest =>
    rw [hF] at h hjf hexf
    have hrest : rest = [] := by
      cases rest with
      | nil => rfl
      | cons b bs => simp at h
    subst hrest
    have h1 : j = a := by simpa using hjf
    have h2 : ex = a := by simpa using hexf
    rw [h1, h2]

/-- After removing the found entry's key, no entry matching the id remains
(given at most one matched before). -/
theorem countMatching_remove_found {id : String} {store : List RepeatableJob}
    {ex : RepeatableJob} (h : countMatching id store ≤ 1)
    (hfind : store.find? (matchesTask id) = some ex) :
    countMatching id (removeJobScheduler store (repeatKey ex)) = 0 := by
  unfold countMatching
  rw [List.length_eq_zero]
  rw [List.filter_eq_nil_iff]
  intro j hj
  unfold removeJobScheduler at hj
  have hj1 : j ∈ store := List.mem_of_mem_filter hj
  have hj2 : repeatKey j ≠ repeatKey ex := by
    have := (List.mem_filter.1 hj).2
    simpa using this
  intro hmatch
  exact hj2 (by rw [matching_unique h hfind j hj1 hmatch])

/-- One run of the reconcile-and-install sequence leaves exactly one
matching entry. -/
theorem scheduleInstall_count (id pattern : String) (tz : Option String)
    (store : List RepeatableJob) (h : countMatching id store ≤ 1) :
    countMatching id (scheduleInstall id pattern tz store) = 1 := by
  unfold scheduleInstall
  cases hfind : store.find? (matchesTask id) with
  | none =>
    have h0 : countMatching id store = 0 := by
      unfold countMatching
      rw [List.length_eq_zero, List.filter_eq_nil_iff]
      intro j hj hmatch
      rw [List.find?_eq_none] at hfind
      exact absurd hmatch (by simpa using hfind j hj)
    rw [countMatching_append, h0]
    simp [countMatching, matchesTask]
  | some ex =>
    rw [countMatching_append, countMatching_remove_found h hfind]
    simp [countMatching, matchesTask]

/-- After one run, every matching entry carries the cron pattern and
timezone of that run. -/
theorem scheduleInstall_latest (id pattern : String) (tz : Option String)
    (store : List RepeatableJob) (h : countMatching id store ≤ 1) :
    ∀ j ∈ scheduleInstall id pattern tz store, matchesTask id j = true →
      j.pattern = pattern ∧ j.tz = tz := by
  intro j hj hmatch
  unfold scheduleInstall at hj
  cases hfind : store.find? (matchesTask id) with
  | none =>
    rw [hfind] at hj
    rcases List.mem_append.1 hj with hjs | hjn
    · rw [List.find?_eq_none] at hfind
      exact absurd hmatch (by simpa using hfind j hjs)
    · have : j = ⟨id, id, pattern, tz, JsVal.obj []⟩ := by simpa using hjn
      rw [this]
      exact ⟨rfl, rfl⟩
  | some ex =>
    rw [hfind] at hj
    rcases List.mem_append.1 hj with hjs | hjn
    · exfalso
      have h0 := countMatching_remove_found h hfind
      unfold countMatching at h0
      rw [List.length_eq_zero] at h0
      have : j ∈ List.filter (matchesTask id)
          (removeJobScheduler store (repeatKey ex)) :=
        List.mem_filter.2 ⟨hjs, hmatch⟩
      rw [h0] at this
      cases this
    · have : j = ⟨id, id, pattern, tz, JsVal.obj []⟩ := by simpa using hjn
      rw [this]
      exact ⟨rfl, rfl⟩

/-- The at-most-one invariant is preserved by any sequence of runs. -/
theorem scheduleInstall_fold_le (id : String)
    (runs : List (String × Option String)) (store : List RepeatableJob)
    (h : countMatching id store ≤ 1) :
    countMatching id
      (runs.foldl (fun s r => scheduleInstall id r.1 r.2 s) store) ≤ 1 := by
  induction runs generalizing store with
  | nil => exact h
  | cons r rs ih =>
    simp only [List.foldl_cons]
    exact ih _ (le_of_eq (scheduleInstall_count id r.1 r.2 store h))

/-- C1: running the ScheduledTask reconcile-and-install sequence (list the
repeatable jobs on the resolved queue, remove the entry whose id or name
equals the task id, add a repeatable job with the task id as both name
and job id) any number of times — starting from a store with at most one
recurring registration under that id — leaves exactly one recurring job
installed under the id, carrying the cron pattern and timezone of the
latest run. -/
theorem scheduledTask_upsert_idempotent (id : String)
    (runs : List (String × Option String)) (lastRun : String × Option String)
    (store : List RepeatableJob) (h : countMatching id store ≤ 1) :
    countMatching id ((runs ++ [lastRun]).foldl
      (fun s r => scheduleInstall id r.1 r.2 s) store) = 1 ∧
    ∀ j ∈ (runs ++ [lastRun]).foldl
      (fun s r => scheduleInstall id r.1 r.2 s) store,
      matchesTask id j = true → j.pattern = lastRun.1 ∧ j.tz = lastRun.2 := by
  rw [List.foldl_append]
  simp only [List.foldl_cons, List.foldl_nil]
  have hmid := scheduleInstall_fold_le id runs store h
  exact ⟨scheduleInstall_count id lastRun.1 lastRun.2 _ hmid,
    scheduleInstall_latest id lastRun.1 lastRun.2 _ hmid⟩

/-- Witness for C1: the spec's own example — declare `reports.daily` with
cron `0 9 * * *`, re-declare with `0 10 * * *`; exactly one recurring
entry remains, at the new time. -/
theorem scheduledTask_upsert_idempotent_witness :
    countMatching "reports.daily" [] ≤ 1 ∧
    (countMatching "reports.daily"
      (([("0 9 * * *", (none : Option String))] ++ [("0 10 * * *", none)]).foldl
        (fun (s : List RepeatableJob) (r : String × Option String) => scheduleInstall "reports.daily" r.1 r.2 s) []) = 1 ∧
    ∀ j ∈ ([("0 9 * * *", (none : Option String))] ++ [("0 10 * * *", none)]).foldl
        (fun (s : List RepeatableJob) (r : String × Option String) => scheduleInstall "reports.daily" r.1 r.2 s) [],
      matchesTask "reports.daily" j = true →
        j.pattern = "0 10 * * *" ∧ j.tz = none) :=
  ⟨by decide,
   scheduledTask_upsert_idempotent "reports.daily" [("0 9 * * *", none)]
     ("0 10 * * *", none) [] (by decide)⟩

/-! ### Job dispatch (worker.ts lines 91-149)

Handler callbacks are arbitrary JavaScript functions; they are modelled
as abstract values of a type `H` together with oracles (`runHandler`,
`runOnError`) giving the outcome of each invocation.  The records below
report which callback was invoked with which arguments.  -/

structure ProcessResult (H P : Type) where
  invoked : Option (H × P)
  result : Except String Unit

/-- `GlobalWorker.processJob` (worker.ts lines 120-134): look up the
handler registered under the job's task id; throw `No handler for task:`
when absent, otherwise invoke the handler with the job's payload. -/
def processJob {H P : Type} (taskHandlers : List (String × H))
    (runHandler : H → P → Except String Unit) (taskId : String) (data : P) :
    ProcessResult H P :=
  match mapGet taskHandlers taskId with
  | none => ⟨none, Except.error ("No handler for task: " ++ taskId)⟩
  | some handler => ⟨some (handler, data), runHandler handler data⟩

structure FailureResult (H P : Type) where
  invoked : Option (H × String × P)
  logged : Option String

/-- `GlobalWorker.handleJobFailure` (worker.ts lines 136-149): invoke the
registered onError, if any, with the error and the job's payload; an
error raised inside onError itself is caught and only logged. -/
def handleJobFailure {H P : Type} (errorHandlers : List (String × Option H))
    (runOnError : H → String → P → Except String Unit)
    (taskId : String) (error : String) (data : P) : FailureResult H P :=
  match mapGet errorHandlers taskId with
  | some (some errorHandler) =>
    match runOnError errorHandler error data with
    | Except.ok _ => ⟨some (errorHandler, error, data), none⟩
    | Except.error handlerError =>
      ⟨some (errorHandler, error, data), some handlerError⟩
  | _ => ⟨none, none⟩

structure JobOutcome (H P : Type) where
  handlerInvoked : Option (H × P)
  failedWith : Option String
  onErrorInvoked : Option (H × String × P)
  onErrorLogged : Option String

/-- One delivered job through a Per-Queue Consumer (worker.ts lines
98-117): the processor runs `processJob`; when it throws, the broker
marks the job failed and the `failed` listener calls `handleJobFailure`
with the job's name, the error and the original payload. -/
def dispatchJob {H P : Type} (taskHandlers : List (String × H))
    (errorHandlers : List (String × Option H))
    (runHandler : H → P → Except String Unit)
    (runOnError : H → String → P → Except String Unit)
    (jobName : String) (data : P) : JobOutcome H P :=
  let pr := processJob taskHandlers runHandler jobName data
  match pr.result with
  | Except.ok _ => ⟨pr.invoked, none, none, none⟩
  | Except.error err =>
    let fr := handleJobFailure errorHandlers runOnError jobName err data
    ⟨pr.invoked, some err, fr.invoked, fr.logged⟩

theorem dispatchJob_registered_invoked {H P : Type}
    (taskHandlers : List (String × H)) (errorHandlers : List (String × Option H))
    (runHandler : H → P → Except String Unit)
    (runOnError : H → String → P → Except String Unit)
    (jobName : String) (data : P) (h : H)
    (hh : mapGet taskHandlers jobName = some h) :
    (dispatchJob taskHandlers errorHandlers runHandler runOnError jobName
      data).handlerInvoked = some (h, data) := by
  unfold dispatchJob processJob
  rw [hh]
  cases hr : runHandler h data <;> simp [hr]

theorem dispatchJob_unregistered {H P : Type}
    (taskHandlers : List (String × H)) (errorHandlers : List (String × Option H))
    (runHandler : H → P → Except String Unit)
    (runOnError : H → String → P → Except String Unit)
    (jobName : String) (data : P)
    (hh : mapGet taskHandlers jobName = none) :
    (dispatchJob taskHandlers errorHandlers runHandler runOnError jobName
        data).handlerInvoked = none ∧
    (dispatchJob taskHandlers errorHandlers runHandler runOnError jobName
        data).failedWith = some ("No handler for task: " ++ jobName) := by
  unfold dispatchJob processJob
  rw [hh]
  simp

/-- C4: for every delivered job, the dispatch callback invokes exactly the
handler registered under the job's task identifier with the job's payload
and no other task's handler; when no handler is registered it raises
`No handler for task:` so the job is marked failed, and invokes no
handler at all. -/
theorem dispatch_routes_to_registered_handler {H P : Type}
    (taskHandlers : List (String × H)) (errorHandlers : List (String × Option H))
    (runHandler : H → P → Except String Unit)
    (runOnError : H → String → P → Except String Unit)
    (jobName : String) (data : P) :
    (∀ h, mapGet taskHandlers jobName = some h →
      (dispatchJob taskHandlers errorHandlers runHandler runOnError jobName
        data).handlerInvoked = some (h, data)) ∧
    (mapGet taskHandlers jobName = none →
      (dispatchJob taskHandlers errorHandlers runHandler runOnError jobName
          data).handlerInvoked = none ∧
      (dispatchJob taskHandlers errorHandlers runHandler runOnError jobName
          data).failedWith = some ("No handler for task: " ++ jobName)) :=
  ⟨fun h hh => dispatchJob_registered_invoked taskHandlers errorHandlers
      runHandler runOnError jobName data h hh,
   fun hh => dispatchJob_unregistered taskHandlers errorHandlers
      runHandler runOnError jobName data hh⟩

/-- Witness for C4: two tasks sharing a queue; the job named `email.welcome`
invokes only its registered handler (number 1) with its own payload, and a
job with no registered handler is failed without invoking any handler. -/
theorem dispatch_routes_to_registered_handler_witness :
    (dispatchJob [("email.welcome", (1 : Nat)), ("email.reset", 2)] []
      (fun _ _ => Except.ok ()) (fun _ _ _ => Except.ok ())
      "email.welcome" "payload1").handlerInvoked = some (1, "payload1") ∧
    ((dispatchJob [("email.welcome", (1 : Nat)), ("email.reset", 2)] []
      (fun _ _ => Except.ok ()) (fun _ _ _ => Except.ok ())
      "email.ghost" "p").handlerInvoked = none ∧
     (dispatchJob [("email.welcome", (1 : Nat)), ("email.reset", 2)] []
      (fun _ _ => Except.ok ()) (fun _ _ _ => Except.ok ())
      "email.ghost" "p").failedWith = some ("No handler for task: " ++ "email.ghost")) :=
  ⟨(dispatch_routes_to_registered_handler
      [("email.welcome", (1 : Nat)), ("email.reset", 2)] []
      (fun _ _ => Except.ok ()) (fun _ _ _ => Except.ok ())
      "email.welcome" "payload1").1 1 (by decide),
   (dispatch_routes_to_registered_handler
      [("email.welcome", (1 : Nat)), ("email.reset", 2)] []
      (fun _ _ => Except.ok ()) (fun _ _ _ => Except.ok ())
      "email.ghost" "p").2 (by decide)⟩

/-- C5: when a handler fails, the failure path invokes the registered
onError (when one exists) with the error and the original payload; the
job's recorded failure is the original error whatever onError does, and
an error raised inside onError is caught and only logged, so the
dispatch completes normally. -/
theorem onError_isolated_from_job_failure {H P : Type}
    (taskHandlers : List (String × H)) (errorHandlers : List (String × Option H))
    (runHandler : H → P → Except String Unit)
    (runOnError : H → String → P → Except String Unit)
    (jobName : String) (data : P) (h : H) (err : String)
    (hh : mapGet taskHandlers jobName = some h)
    (hfail : runHandler h data = Except.error err) :
    (dispatchJob taskHandlers errorHandlers runHandler runOnError jobName
        data).failedWith = some err ∧
    (∀ e, mapGet errorHandlers jobName = some (some e) →
      (dispatchJob taskHandlers errorHandlers runHandler runOnError jobName
        data).onErrorInvoked = some (e, err, data)) ∧
    (∀ e he, mapGet errorHandlers jobName = some (some e) →
      runOnError e err data = Except.error he →
      (dispatchJob taskHandlers errorHandlers runHandler runOnError jobName
        data).onErrorLogged = some he) := by
  have key : dispatchJob taskHandlers errorHandlers runHandler runOnError
      jobName data =
      ⟨some (h, data), some err,
        (handleJobFailure errorHandlers runOnError jobName err data).invoked,
        (handleJobFailure errorHandlers runOnError jobName err data).logged⟩ := by
    simp [dispatchJob, processJob, hh, hfail]
  rw [key]
  refine ⟨rfl, ?_, ?_⟩
  · intro e hreg
    unfold handleJobFailure
    rw [hreg]
    cases hr : runOnError e err data <;> simp [hr]
  · intro e errInner hreg hre
    unfold handleJobFailure
    rw [hreg]
    simp [hre]

/-- Witness for C5: the handler for `orders.sync` fails with `boom`; the
registered onError (number 9) is invoked with `boom` and the original
payload, its own failure `inner` is only logged, and the job's failure
stays `boom`. -/
theorem onError_isolated_from_job_failure_witness :
    (dispatchJob [("orders.sync", (3 : Nat))] [("orders.sync", some 9)]
      (fun _ _ => Except.error "boom") (fun _ _ _ => Except.error "inner")
      "orders.sync" "pay").failedWith = some "boom" ∧
    (dispatchJob [("orders.sync", (3 : Nat))] [("orders.sync", some 9)]
      (fun _ _ => Except.error "boom") (fun _ _ _ => Except.error "inner")
      "orders.sync" "pay").onErrorInvoked = some (9, "boom", "pay") ∧
    (dispatchJob [("orders.sync", (3 : Nat))] [("orders.sync", some 9)]
      (fun _ _ => Except.error "boom") (fun _ _ _ => Except.error "inner")
      "orders.sync" "pay").onErrorLogged = some "inner" := by
  have h := onError_isolated_from_job_failure
    [("orders.sync", (3 : Nat))] [("orders.sync", some 9)]
    (fun _ _ => Except.error "boom") (fun _ _ _ => Except.error "inner")
    "orders.sync" "pay" 3 "boom" (by decide) rfl
  exact ⟨h.1, h.2.1 9 (by decide), h.2.2 9 "inner" (by decide) rfl⟩

/-- C10: the job installed by a ScheduledTask's self-install carries the
empty object as payload, and on each firing the handler registered under
the task id is invoked with that empty-object payload. -/
theorem scheduledTask_payload_is_empty_object (id pattern : String)
    (tz : Option String) (store : List RepeatableJob) :
    (scheduleInstall id pattern tz store).getLast? =
      some ⟨id, id, pattern, tz, JsVal.obj []⟩ ∧
    ∀ {H : Type} (taskHandlers : List (String × H))
      (errorHandlers : List (String × Option H))
      (runHandler : H → JsVal → Except String Unit)
      (runOnError : H → String → JsVal → Except String Unit) (h : H),
      mapGet taskHandlers id = some h →
      (dispatchJob taskHandlers errorHandlers runHandler runOnError id
        (JsVal.obj [])).handlerInvoked = some (h, JsVal.obj []) := by
  constructor
  · unfold scheduleInstall
    cases store.find? (matchesTask id) <;> simp
  · intro H taskHandlers errorHandlers runHandler runOnError h hh
    exact dispatchJob_registered_invoked taskHandlers errorHandlers
      runHandler runOnError id (JsVal.obj []) h hh

/-- Witness for C10 at `reports.daily`. -/
theorem scheduledTask_payload_is_empty_object_witness :
    (scheduleInstall "reports.daily" "0 9 * * *" none []).getLast? =
      some ⟨"reports.daily", "reports.daily", "0 9 * * *", none, JsVal.obj []⟩ ∧
    (dispatchJob [("reports.daily", (5 : Nat))] []
      (fun _ _ => Except.ok ()) (fun _ _ _ => Except.ok ())
      "reports.daily" (JsVal.obj [])).handlerInvoked = some (5, JsVal.obj []) :=
  ⟨(scheduledTask_payload_is_empty_object "reports.daily" "0 9 * * *" none []).1,
   (scheduledTask_payload_is_empty_object "reports.daily" "0 9 * * *" none []).2
     [("reports.daily", 5)] [] (fun _ _ => Except.ok ())
     (fun _ _ _ => Except.ok ()) 5 (by decide)⟩

/-- Counterexample for C2 as stated: an id with no `.` does not resolve to
the configured default queue — id `email` with default queue `myapp`
resolves to `email`, because `id.split(".")[0]` is the whole id and is
truthy. -/
theorem resolveQueue_no_dot_not_default :
    resolveQueue none "email" "myapp" = "email" ∧ "email" ≠ "myapp" :=
  ⟨by decide, by decide⟩

/-- C2 (amended): the effective queue is the explicit nonempty `queue`
option when given; otherwise the substring of `id` before its first `.`
(the whole id when it contains no `.`) when that substring is nonempty;
the configured default queue is used only when that substring is empty
(empty id or id beginning with `.`). -/
theorem resolveQueue_policy (queueOpt : Option String) (id dq : String) :
    (∀ q, queueOpt = some q → q ≠ "" → resolveQueue queueOpt id dq = q) ∧
    (queueOpt.getD "" = "" → splitHead id ≠ "" →
      resolveQueue queueOpt id dq = splitHead id) ∧
    (queueOpt.getD "" = "" → splitHead id = "" →
      resolveQueue queueOpt id dq = dq) ∧
    ((∀ c ∈ id.toList, c ≠ '.') → splitHead id = id) := by
  refine ⟨?_, ?_, ?_, ?_⟩
  · intro q hq hne
    subst hq
    simp [resolveQueue, jsOrS, hne]
  · intro h1 h2
    simp [resolveQueue, jsOrS, h1, h2]
  · intro h1 h2
    simp [resolveQueue, jsOrS, h1, h2]
  · intro h
    unfold splitHead
    rw [List.takeWhile_eq_self_iff.2 (by intro c hc; simpa using h c hc)]
    rfl

/-- Witness for C2 (amended): explicit queue wins; `email.welcome` resolves
to `email`; an empty id falls back to the default; a dot-free id keeps its
whole text as the namespace part. -/
theorem resolveQueue_policy_witness :
    resolveQueue (some "custom") "email.welcome" "default" = "custom" ∧
    resolveQueue none "email.welcome" "default" = "email" ∧
    resolveQueue none "" "default" = "default" ∧
    splitHead "email" = "email" := by
  refine ⟨?_, ?_, ?_, ?_⟩
  · exact (resolveQueue_policy (some "custom") "email.welcome" "default").1
      "custom" rfl (by decide)
  · have h := (resolveQueue_policy none "email.welcome" "default").2.1 rfl
      (by decide)
    rw [h]
    decide
  · exact (resolveQueue_policy none "" "default").2.2.1 rfl (by decide)
  · exact (resolveQueue_policy none "email" "default").2.2.2 (by decide)

/-! ### The dispatch engine state machine (worker.ts and config.ts)

`GlobalWorker` is a process-wide singleton; its mutable fields, together
with the connection provider's module state in config.ts, form the state
below.  Handler callbacks are identified by numbers.  `live` is the set
of Consumer instances created and not yet closed; the TypeScript class
does not store it explicitly (it is the set of constructed BullMQ
Workers), and it is tracked here to state liveness claims. -/

structure Consumer : Type where
  queue : String
  tok : Nat
  concurrency : Nat
deriving DecidableEq, Repr

structure EngineState : Type where
  workers : List (String × Consumer)
  taskHandlers : List (String × Nat)
  errorHandlers : List (String × Option Nat)
  taskQueues : List (String × String)
  redis : Bool
  isStarted : Bool
  live : List Consumer
  nextTok : Nat
  configured : Bool
  sharedConn : Bool
deriving DecidableEq, Repr

/-- config.ts `getSharedRedisConnection`: reuse the shared connection when
it exists, create it when a connection is configured, otherwise throw a
configuration error.  The returned flag is the new "shared connection
exists" state. -/
def getSharedRedisConnection (configured shared : Bool) : Except String Bool :=
  if shared then Except.ok true
  else if configured then Except.ok true
  else Except.error "Redis connection not configured. Please call configure() with a connection setting first."

/-- config.ts `createRedisConnection`: create a fresh producer connection
(used by `Task.trigger` / `ScheduledTask.schedule`), throwing the same
configuration error when no connection is configured. -/
def createRedisConnection (configured : Bool) : Except String Unit :=
  if configured then Except.ok ()
  else Except.error "Redis connection not configured. Please call configure() with a connection setting first."

/-- `GlobalWorker.createQueueWorker` (worker.ts lines 91-118): throw when
no connection is available, else construct a Worker on the queue with the
given concurrency (default 5) and record it under the queue name. -/
def createQueueWorker (s : EngineState) (queueName : String)
    (concurrency : Option Nat) : Except String EngineState :=
  if s.redis = false then
    Except.error "Redis connection not available. Please call configure() first."
  else
    let c : Consumer := ⟨queueName, s.nextTok, concurrency.getD 5⟩
    Except.ok { s with workers := mapSet s.workers queueName c,
                       live := s.live ++ [c],
                       nextTok := s.nextTok + 1 }

/-- `createQueueWorker` as called by code that lets a thrown error
propagate: on error no further mutation happens. -/
def runCreate (s : EngineState) (queueName : String)
    (concurrency : Option Nat) : EngineState :=
  match createQueueWorker s queueName concurrency with
  | Except.ok s' => s'
  | Except.error _ => s

/-- `GlobalWorker.registerTask` (worker.ts lines 26-40): upsert the
handler, error handler and queue of the task id, then create a Consumer
immediately when the engine is already started and none exists for the
queue. -/
def registerTask (s : EngineState) (taskId queue : String) (handler : Nat)
    (onError : Option Nat) (concurrency : Option Nat) : EngineState :=
  let s1 := { s with taskHandlers := mapSet s.taskHandlers taskId handler,
                     errorHandlers := mapSet s.errorHandlers taskId onError,
                     taskQueues := mapSet s.taskQueues taskId queue }
  if !mapHas s1.workers queue && s1.isStarted then runCreate s1 queue concurrency
  else s1

/-- `GlobalWorker.start` (worker.ts lines 42-68): return at once when
already started; obtain the shared connection, throwing (without
mutation) when none is configured; create one Consumer per distinct
registered queue value; mark started.  The JS `Set` iterates in
insertion order; order is immaterial to every property proved below, so
the distinct queue values are taken with `List.dedup`. -/
def startEngine (s : EngineState) : EngineState :=
  if s.isStarted then s
  else
    match getSharedRedisConnection s.configured s.sharedConn with
    | Except.error _ => s
    | Except.ok sh =>
      let s1 := { s with sharedConn := sh, redis := true }
      let queues := (s1.taskQueues.map Prod.snd).dedup
      let s2 := queues.foldl (fun st q => runCreate st q none) s1
      { s2 with isStarted := true }

/-- `GlobalWorker.stop` (worker.ts lines 151-157): close every worker in
the map, clear the map, reset the started flag.  Closing removes the
instance from the live set; the shared connection is not touched. -/
def stopEngine (s : EngineState) : EngineState :=
  { s with
      live := s.live.filter (fun c => decide (c ∉ s.workers.map Prod.snd)),
      workers := [],
      isStarted := false }

inductive Op : Type where
  | register (taskId queue : String) (handler : Nat) (onError : Option Nat)
      (concurrency : Option Nat)
  | start
  | stop
deriving DecidableEq, Repr

def stepOp (s : EngineState) : Op → EngineState
  | Op.register taskId queue handler onError concurrency =>
      registerTask s taskId queue handler onError concurrency
  | Op.start => startEngine s
  | Op.stop => stopEngine s

/-- The idle initial state; `configured` records whether `configure()`
was called with a connection before the operations run. -/
def initState (configured : Bool) : EngineState :=
  ⟨[], [], [], [], false, false, [], 0, configured, false⟩

def applyOps (configured : Bool) (ops : List Op) : EngineState :=
  ops.foldl stepOp (initState configured)

/-- Live consumers on a queue. -/
def liveQueueCount (s : EngineState) (q : String) : Nat :=
  (s.live.map Consumer.queue).count q

/-- Entries of the workers map under a queue name. -/
def workerQueueCount (s : EngineState) (q : String) : Nat :=
  (s.workers.map Prod.fst).count q

/-! ### Engine invariants -/

theorem mapHas_false_iff_not_key {α : Type} (m : List (String × α)) (k : String) :
    mapHas m k = false ↔ k ∉ m.map Prod.fst := by
  induction m with
  | nil => simp [mapHas]
  | cons p ps ih =>
    simp only [mapHas, Bool.or_eq_false_iff, ih, List.map_cons, List.mem_cons,
      beq_eq_false_iff_ne, ne_eq]
    constructor
    · rintro ⟨h1, h2⟩ (hk | hk)
      · exact h1 hk.symm
      · exact h2 hk
    · intro h
      exact ⟨fun hk => h (Or.inl hk.symm), fun hk => h (Or.inr hk)⟩

theorem runCreate_fields (s : EngineState) (q : String) (c : Option Nat) :
    (runCreate s q c).taskHandlers = s.taskHandlers ∧
    (runCreate s q c).errorHandlers = s.errorHandlers ∧
    (runCreate s q c).taskQueues = s.taskQueues ∧
    (runCreate s q c).isStarted = s.isStarted ∧
    (runCreate s q c).redis = s.redis ∧
    (runCreate s q c).configured = s.configured ∧
    (runCreate s q c).sharedConn = s.sharedConn := by
  unfold runCreate createQueueWorker
  by_cases h : s.redis = false <;> simp [h]

theorem foldCreate_fields (qs : List String) (s : EngineState) :
    ((qs.foldl (fun st q => runCreate st q none) s).taskHandlers = s.taskHandlers ∧
     (qs.foldl (fun st q => runCreate st q none) s).errorHandlers = s.errorHandlers ∧
     (qs.foldl (fun st q => runCreate st q none) s).taskQueues = s.taskQueues ∧
     (qs.foldl (fun st q => runCreate st q none) s).isStarted = s.isStarted ∧
     (qs.foldl (fun st q => runCreate st q none) s).redis = s.redis ∧
     (qs.foldl (fun st q => runCreate st q none) s).configured = s.configured ∧
     (qs.foldl (fun st q => runCreate st q none) s).sharedConn = s.sharedConn) := by
  induction qs generalizing s with
  | nil => exact ⟨rfl, rfl, rfl, rfl, rfl, rfl, rfl⟩
  | cons q rest ih =>
    simp only [List.foldl_cons]
    have h1 := runCreate_fields s q none
    have h2 := ih (runCreate s q none)
    exact ⟨h2.1.trans h1.1, h2.2.1.trans h1.2.1, h2.2.2.1.trans h1.2.2.1,
      h2.2.2.2.1.trans h1.2.2.2.1, h2.2.2.2.2.1.trans h1.2.2.2.2.1,
      h2.2.2.2.2.2.1.trans h1.2.2.2.2.2.1, h2.2.2.2.2.2.2.trans h1.2.2.2.2.2.2⟩

theorem createQueueWorker_ok {s : EngineState} (q : String) (c : Option Nat)
    (h : s.redis = true) :
    createQueueWorker s q c = Except.ok
      { s with workers := mapSet s.workers q ⟨q, s.nextTok, c.getD 5⟩,
               live := s.live ++ [⟨q, s.nextTok, c.getD 5⟩],
               nextTok := s.nextTok + 1 } := by
  simp [createQueueWorker, h]

theorem runCreate_inv {s : EngineState} (q : String) (c : Option Nat)
    (hred : s.redis = true) (hnot : mapHas s.workers q = false)
    (hlive : s.live = s.workers.map Prod.snd)
    (hnd : (s.workers.map Prod.fst).Nodup)
    (hq : ∀ p ∈ s.workers, (p.2).queue = p.1) :
    (runCreate s q c).workers =
      s.workers ++ [(q, ⟨q, s.nextTok, c.getD 5⟩)] ∧
    (runCreate s q c).live = (runCreate s q c).workers.map Prod.snd ∧
    ((runCreate s q c).workers.map Prod.fst).Nodup ∧
    (∀ p ∈ (runCreate s q c).workers, (p.2).queue = p.1) := by
  have hrc : runCreate s q c =
      { s with workers := s.workers ++ [(q, ⟨q, s.nextTok, c.getD 5⟩)],
               live := s.live ++ [⟨q, s.nextTok, c.getD 5⟩],
               nextTok := s.nextTok + 1 } := by
    unfold runCreate
    rw [createQueueWorker_ok q c hred, mapSet_of_not_has _ hnot]
  rw [hrc]
  have hqk : q ∉ s.workers.map Prod.fst := (mapHas_false_iff_not_key _ _).1 hnot
  refine ⟨rfl, ?_, ?_, ?_⟩
  · simp [hlive]
  · simp only [List.map_append]
    refine List.Nodup.append hnd (List.nodup_singleton q) ?_
    intro a ha hb
    simp only [List.map_cons, List.map_nil, List.mem_singleton] at hb
    subst hb
    exact hqk ha
  · intro p hp
    rcases List.mem_append.1 hp with hp | hp
    · exact hq p hp
    · simp only [List.mem_singleton] at hp
      subst hp
      rfl

theorem foldCreate_inv (qs : List String) (s : EngineState)
    (hred : s.redis = true) (hnd : qs.Nodup)
    (hdis : ∀ q ∈ qs, q ∉ s.workers.map Prod.fst)
    (hlive : s.live = s.workers.map Prod.snd)
    (hknd : (s.workers.map Prod.fst).Nodup)
    (hq : ∀ p ∈ s.workers, (p.2).queue = p.1) :
    (qs.foldl (fun st q => runCreate st q none) s).workers.map Prod.fst =
      s.workers.map Prod.fst ++ qs ∧
    (qs.foldl (fun st q => runCreate st q none) s).live =
      (qs.foldl (fun st q => runCreate st q none) s).workers.map Prod.snd ∧
    ((qs.foldl (fun st q => runCreate st q none) s).workers.map Prod.fst).Nodup ∧
    (∀ p ∈ (qs.foldl (fun st q => runCreate st q none) s).workers,
      (p.2).queue = p.1) := by
  induction qs generalizing s with
  | nil => exact ⟨by simp, hlive, hknd, hq⟩
  | cons q rest ih =>
    simp only [List.foldl_cons]
    have hnotq : mapHas s.workers q = false :=
      (mapHas_false_iff_not_key _ _).2 (hdis q (by simp))
    obtain ⟨hw, hl, hn, hqq⟩ := runCreate_inv q none hred hnotq hlive hknd hq
    have hred1 : (runCreate s q none).redis = true := by
      rw [(runCreate_fields s q none).2.2.2.2.1]
      exact hred
    have hrnd : rest.Nodup := (List.nodup_cons.1 hnd).2
    have hqnr : q ∉ rest := (List.nodup_cons.1 hnd).1
    have hdis1 : ∀ r ∈ rest, r ∉ (runCreate s q none).workers.map Prod.fst := by
      intro r hr hmem
      rw [hw] at hmem
      simp only [List.map_append, List.mem_append, List.map_cons, List.map_nil,
        List.mem_singleton] at hmem
      rcases hmem with hmem | hmem
      · exact hdis r (by simp [hr]) hmem
      · subst hmem
        exact hqnr hr
    obtain ⟨ihw, ihl, ihn, ihq⟩ := ih (runCreate s q none) hred1 hrnd hdis1 hl hn hqq
    refine ⟨?_, ihl, ihn, ihq⟩
    rw [ihw, hw]
    simp

/-- The invariant maintained by all reachable engine states. -/
structure EngineInv (s : EngineState) : Prop where
  live_eq : s.live = s.workers.map Prod.snd
  keys_nodup : (s.workers.map Prod.fst).Nodup
  queue_eq : ∀ p ∈ s.workers, (p.2).queue = p.1
  idle_empty : s.isStarted = false → s.workers = []
  started_redis : s.isStarted = true → s.redis = true

theorem engineInv_register {s : EngineState} (h : EngineInv s)
    (taskId queue : String) (hd : Nat) (oe : Option Nat)
    (conc : Option Nat) :
    EngineInv (registerTask s taskId queue hd oe conc) := by
  unfold registerTask
  dsimp only
  by_cases hcond : (!mapHas s.workers queue && s.isStarted) = true
  · rw [if_pos hcond]
    obtain ⟨h1, hstart⟩ := Bool.and_eq_true_iff.1 hcond
    have hnot : mapHas s.workers queue = false := by simpa using h1
    have hred : s.redis = true := h.started_redis hstart
    obtain ⟨hw, hl, hn, hqq⟩ :=
      runCreate_inv (s := { s with taskHandlers := mapSet s.taskHandlers taskId hd,
                                   errorHandlers := mapSet s.errorHandlers taskId oe,
                                   taskQueues := mapSet s.taskQueues taskId queue })
        queue conc hred hnot h.live_eq h.keys_nodup h.queue_eq
    refine ⟨hl, hn, hqq, ?_, ?_⟩
    · intro hf
      rw [(runCreate_fields _ _ _).2.2.2.1] at hf
      simp only at hf
      rw [hstart] at hf
      cases hf
    · intro _
      rw [(runCreate_fields _ _ _).2.2.2.2.1]
      exact hred
  · rw [if_neg hcond]
    exact ⟨h.live_eq, h.keys_nodup, h.queue_eq, h.idle_empty, h.started_redis⟩

theorem engineInv_start {s : EngineState} (h : EngineInv s) :
    EngineInv (startEngine s) := by
  unfold startEngine
  by_cases hs : s.isStarted = true
  · rw [if_pos hs]
    exact h
  · rw [if_neg hs]
    have hs' : s.isStarted = false := by
      revert hs
      cases s.isStarted <;> simp
    have hempty : s.workers = [] := h.idle_empty hs'
    cases hg : getSharedRedisConnection s.configured s.sharedConn with
    | error e => exact h
    | ok sh =>
      dsimp only
      obtain ⟨hkeys, hl, hn, hqq⟩ :=
        foldCreate_inv ((s.taskQueues.map Prod.snd).dedup)
          { s with sharedConn := sh, redis := true } rfl
          (List.nodup_dedup _) (by simp [hempty])
          (by simpa [hempty] using h.live_eq) (by simp [hempty])
          (by simp [hempty])
      refine ⟨hl, hn, hqq, ?_, ?_⟩
      · intro hf
        cases hf
      · intro _
        rw [(foldCreate_fields _ _).2.2.2.2.1]

theorem engineInv_stop {s : EngineState} (h : EngineInv s) :
    EngineInv (stopEngine s) := by
  have hl : (stopEngine s).live = [] := by
    unfold stopEngine
    dsimp only
    rw [List.filter_eq_nil_iff]
    intro c hc
    rw [h.live_eq] at hc
    simp [hc]
  refine ⟨by rw [hl]; rfl, by simp [stopEngine], ?_, fun _ => rfl, ?_⟩
  · intro p hp
    simp [stopEngine] at hp
  · intro hf
    simp [stopEngine] at hf

theorem engineInv_fold {s : EngineState} (h : EngineInv s) (ops : List Op) :
    EngineInv (ops.foldl stepOp s) := by
  induction ops generalizing s with
  | nil => exact h
  | cons op rest ih =>
    simp only [List.foldl_cons]
    apply ih
    cases op with
    | register a b c d e => exact engineInv_register h a b c d e
    | start => exact engineInv_start h
    | stop => exact engineInv_stop h

theorem engineInv_applyOps (c : Bool) (ops : List Op) :
    EngineInv (applyOps c ops) := by
  have hbase : EngineInv (initState c) := by
    constructor <;> simp [initState]
  exact engineInv_fold hbase ops

theorem liveQueues_eq_keys {s : EngineState}
    (h1 : s.live = s.workers.map Prod.snd)
    (h2 : ∀ p ∈ s.workers, (p.2).queue = p.1) :
    s.live.map Consumer.queue = s.workers.map Prod.fst := by
  rw [h1, List.map_map]
  exact List.map_congr_left h2

theorem getShared_ok_of_configured (shared : Bool) :
    getSharedRedisConnection true shared = Except.ok true := by
  cases shared <;> rfl

theorem registerTask_fieldsR (s : EngineState) (tid qu : String) (hd : Nat)
    (oe : Option Nat) (conc : Option Nat) :
    (registerTask s tid qu hd oe conc).taskHandlers = mapSet s.taskHandlers tid hd ∧
    (registerTask s tid qu hd oe conc).errorHandlers = mapSet s.errorHandlers tid oe ∧
    (registerTask s tid qu hd oe conc).taskQueues = mapSet s.taskQueues tid qu ∧
    (registerTask s tid qu hd oe conc).configured = s.configured := by
  unfold registerTask
  dsimp only
  split
  · exact ⟨(runCreate_fields _ _ _).1, (runCreate_fields _ _ _).2.1,
      (runCreate_fields _ _ _).2.2.1, (runCreate_fields _ _ _).2.2.2.2.2.1⟩
  · exact ⟨rfl, rfl, rfl, rfl⟩

theorem startEngine_fields (s : EngineState) :
    (startEngine s).taskHandlers = s.taskHandlers ∧
    (startEngine s).errorHandlers = s.errorHandlers ∧
    (startEngine s).taskQueues = s.taskQueues ∧
    (startEngine s).configured = s.configured := by
  unfold startEngine
  split
  · exact ⟨rfl, rfl, rfl, rfl⟩
  · cases hg : getSharedRedisConnection s.configured s.sharedConn with
    | error e => exact ⟨rfl, rfl, rfl, rfl⟩
    | ok sh =>
      exact ⟨(foldCreate_fields _ _).1, (foldCreate_fields _ _).2.1,
        (foldCreate_fields _ _).2.2.1, (foldCreate_fields _ _).2.2.2.2.2.1⟩

theorem stepOp_configured (s : EngineState) (op : Op) :
    (stepOp s op).configured = s.configured := by
  cases op with
  | register a b hd oe conc => exact (registerTask_fieldsR s a b hd oe conc).2.2.2
  | start => exact (startEngine_fields s).2.2.2
  | stop => rfl

theorem applyOps_configured (c : Bool) (ops : List Op) :
    (applyOps c ops).configured = c := by
  suffices H : ∀ (s : EngineState) (l : List Op),
      (l.foldl stepOp s).configured = s.configured by
    exact H (initState c) ops
  intro s l
  induction l generalizing s with
  | nil => rfl
  | cons op rest ih =>
    simp only [List.foldl_cons]
    rw [ih (stepOp s op), stepOp_configured]

theorem startEngine_restarts {s : EngineState} (hc : s.configured = true) :
    (startEngine s).isStarted = true := by
  unfold startEngine
  split
  · next hs => exact hs
  · rw [hc, getShared_ok_of_configured]

theorem mapGet_set {α : Type} (m : List (String × α)) (k k' : String) (v : α) :
    mapGet (mapSet m k v) k' = if k = k' then some v else mapGet m k' := by
  by_cases h : k = k'
  · subst h
    simp [mapGet_set_self]
  · rw [if_neg h, mapGet_set_ne _ _ _ _ (Ne.symm h)]

/-- The handler held by the registry for `id` after the registrations in
`ops`, starting from `v` (last write wins). -/
def lastHandler (ops : List Op) (id : String) (v : Option Nat) : Option Nat :=
  ops.foldl (fun acc op => match op with
    | Op.register tid _ hd _ _ => if tid = id then some hd else acc
    | _ => acc) v

/-- The error handler held by the registry for `id` (last write wins). -/
def lastOnError (ops : List Op) (id : String) (v : Option (Option Nat)) :
    Option (Option Nat) :=
  ops.foldl (fun acc op => match op with
    | Op.register tid _ _ oe _ => if tid = id then some oe else acc
    | _ => acc) v

/-- The queue held by the registry for `id` (last write wins). -/
def lastQueue (ops : List Op) (id : String) (v : Option String) : Option String :=
  ops.foldl (fun acc op => match op with
    | Op.register tid qu _ _ _ => if tid = id then some qu else acc
    | _ => acc) v

theorem fold_registry (ops : List Op) (s : EngineState) (id : String) :
    mapGet (ops.foldl stepOp s).taskHandlers id =
      lastHandler ops id (mapGet s.taskHandlers id) ∧
    mapGet (ops.foldl stepOp s).errorHandlers id =
      lastOnError ops id (mapGet s.errorHandlers id) ∧
    mapGet (ops.foldl stepOp s).taskQueues id =
      lastQueue ops id (mapGet s.taskQueues id) := by
  induction ops generalizing s with
  | nil => exact ⟨rfl, rfl, rfl⟩
  | cons op rest ih =>
    obtain ⟨i1, i2, i3⟩ := ih (stepOp s op)
    simp only [List.foldl_cons]
    cases op with
    | register tid qu hd oe conc =>
      obtain ⟨r1, r2, r3, _⟩ := registerTask_fieldsR s tid qu hd oe conc
      refine ⟨?_, ?_, ?_⟩
      · rw [i1]
        show lastHandler rest id
            (mapGet (stepOp s (Op.register tid qu hd oe conc)).taskHandlers id) =
          lastHandler rest id (if tid = id then some hd else mapGet s.taskHandlers id)
        congr 1
        rw [show (stepOp s (Op.register tid qu hd oe conc)).taskHandlers =
          (registerTask s tid qu hd oe conc).taskHandlers from rfl, r1, mapGet_set]
      · rw [i2]
        show lastOnError rest id
            (mapGet (stepOp s (Op.register tid qu hd oe conc)).errorHandlers id) =
          lastOnError rest id (if tid = id then some oe else mapGet s.errorHandlers id)
        congr 1
        rw [show (stepOp s (Op.register tid qu hd oe conc)).errorHandlers =
          (registerTask s tid qu hd oe conc).errorHandlers from rfl, r2, mapGet_set]
      · rw [i3]
        show lastQueue rest id
            (mapGet (stepOp s (Op.register tid qu hd oe conc)).taskQueues id) =
          lastQueue rest id (if tid = id then some qu else mapGet s.taskQueues id)
        congr 1
        rw [show (stepOp s (Op.register tid qu hd oe conc)).taskQueues =
          (registerTask s tid qu hd oe conc).taskQueues from rfl, r3, mapGet_set]
    | start =>
      obtain ⟨f1, f2, f3, _⟩ := startEngine_fields s
      refine ⟨?_, ?_, ?_⟩
      · rw [i1]
        show lastHandler rest id (mapGet (startEngine s).taskHandlers id) =
          lastHandler rest id (mapGet s.taskHandlers id)
        rw [f1]
      · rw [i2]
        show lastOnError rest id (mapGet (startEngine s).errorHandlers id) =
          lastOnError rest id (mapGet s.errorHandlers id)
        rw [f2]
      · rw [i3]
        show lastQueue rest id (mapGet (startEngine s).taskQueues id) =
          lastQueue rest id (mapGet s.taskQueues id)
        rw [f3]
    | stop => exact ⟨i1, i2, i3⟩

/-- C6: in every engine state reachable from the idle initial state by any
sequence of registerTask, start and stop operations, each queue name has
at most one live Consumer and at most one entry in the workers map. -/
theorem at_most_one_live_consumer_per_queue (c : Bool) (ops : List Op)
    (q : String) :
    liveQueueCount (applyOps c ops) q ≤ 1 ∧
    workerQueueCount (applyOps c ops) q ≤ 1 := by
  have h := engineInv_applyOps c ops
  have hle := List.nodup_iff_count_le_one.1 h.keys_nodup q
  constructor
  · unfold liveQueueCount
    rw [liveQueues_eq_keys h.live_eq h.queue_eq]
    exact hle
  · exact hle

/-- C3: running start() on a not-yet-started (reachable) engine with a
configured connection installs exactly one Per-Queue Consumer for each
distinct registered queue value of the registry — including explicit
queue names differing from the id's namespace part — and none for any
other queue name, and marks the engine started. -/
theorem start_creates_one_consumer_per_registered_queue (c : Bool)
    (ops : List Op) (q : String)
    (hns : (applyOps c ops).isStarted = false) (hc : c = true) :
    (startEngine (applyOps c ops)).isStarted = true ∧
    workerQueueCount (startEngine (applyOps c ops)) q =
      (if q ∈ (applyOps c ops).taskQueues.map Prod.snd then 1 else 0) ∧
    liveQueueCount (startEngine (applyOps c ops)) q =
      (if q ∈ (applyOps c ops).taskQueues.map Prod.snd then 1 else 0) := by
  have hInv := engineInv_applyOps c ops
  have hcfg : (applyOps c ops).configured = true := by
    rw [applyOps_configured, hc]
  set s := applyOps c ops with hsdef
  have hempty : s.workers = [] := hInv.idle_empty hns
  have hns' : ¬ s.isStarted = true := by
    rw [hns]
    simp
  have hstart : startEngine s =
      { ((s.taskQueues.map Prod.snd).dedup).foldl
          (fun st q => runCreate st q none)
          { s with sharedConn := true, redis := true } with isStarted := true } := by
    unfold startEngine
    rw [if_neg hns', hcfg, getShared_ok_of_configured]
  obtain ⟨hkeys, hl, hn, hqq⟩ :=
    foldCreate_inv ((s.taskQueues.map Prod.snd).dedup)
      { s with sharedConn := true, redis := true } rfl (List.nodup_dedup _)
      (by simp [hempty]) (by simpa [hempty] using hInv.live_eq)
      (by simp [hempty]) (by simp [hempty])
  refine ⟨by rw [hstart], ?_, ?_⟩
  · unfold workerQueueCount
    rw [hstart]
    dsimp only
    rw [hkeys]
    simp only [hempty, List.map_nil, List.nil_append]
    rw [List.count_eq_of_nodup (List.nodup_dedup _)]
    exact if_congr List.mem_dedup rfl rfl
  · unfold liveQueueCount
    rw [hstart]
    dsimp only
    rw [liveQueues_eq_keys hl hqq, hkeys]
    simp only [hempty, List.map_nil, List.nil_append]
    rw [List.count_eq_of_nodup (List.nodup_dedup _)]
    exact if_congr List.mem_dedup rfl rfl

/-- Witness for C3: three registrations, two on queue `email` and one with
an explicit queue `custom` that differs from the id's namespace part;
start() installs exactly one consumer on `custom`. -/
theorem start_creates_one_consumer_per_registered_queue_witness :
    (applyOps true [Op.register "email.welcome" "email" 1 none none,
        Op.register "email.reset" "email" 2 none none,
        Op.register "orders.process" "custom" 3 none none]).isStarted = false ∧
    (startEngine (applyOps true [Op.register "email.welcome" "email" 1 none none,
        Op.register "email.reset" "email" 2 none none,
        Op.register "orders.process" "custom" 3 none none])).isStarted = true ∧
    workerQueueCount (startEngine (applyOps true
        [Op.register "email.welcome" "email" 1 none none,
        Op.register "email.reset" "email" 2 none none,
        Op.register "orders.process" "custom" 3 none none])) "custom" =
      (if "custom" ∈ (applyOps true [Op.register "email.welcome" "email" 1 none none,
        Op.register "email.reset" "email" 2 none none,
        Op.register "orders.process" "custom" 3 none none]).taskQueues.map Prod.snd
       then 1 else 0) := by
  have h := start_creates_one_consumer_per_registered_queue true
    [Op.register "email.welcome" "email" 1 none none,
     Op.register "email.reset" "email" 2 none none,
     Op.register "orders.process" "custom" 3 none none] "custom" (by decide) rfl
  exact ⟨by decide, h.1, h.2.1⟩

/-- Counterexample for C7 as stated: the registry does not hold the
concurrency of the latest registration — re-registering `a.x` with
concurrency 9 leaves the queue's consumer at the concurrency 2 of the
registration that created it. -/
theorem registry_concurrency_not_overwritten :
    (mapGet (applyOps true [Op.start,
        Op.register "a.x" "a" 1 none (some 2),
        Op.register "a.x" "a" 7 none (some 9)]).workers "a").map
      Consumer.concurrency = some 2 ∧ (2 : Nat) ≠ 9 := by
  exact ⟨by decide, by decide⟩

/-- C7 (amended): registerTask is a deterministic in-memory upsert keyed
by task id: after any operation sequence the registry holds, per id,
exactly the handler, error handler and queue of its latest registration
(last write wins); concurrency is not stored — a registration whose
queue already has a consumer leaves the consumers untouched, so its
concurrency has no effect. -/
theorem registerTask_last_write_wins (c : Bool) (ops : List Op) (id : String) :
    mapGet (applyOps c ops).taskHandlers id = lastHandler ops id none ∧
    mapGet (applyOps c ops).errorHandlers id = lastOnError ops id none ∧
    mapGet (applyOps c ops).taskQueues id = lastQueue ops id none ∧
    (∀ (s : EngineState) (tid qu : String) (hd : Nat) (oe : Option Nat)
      (conc : Option Nat), mapHas s.workers qu = true →
      (registerTask s tid qu hd oe conc).workers = s.workers ∧
      (registerTask s tid qu hd oe conc).live = s.live) := by
  obtain ⟨f1, f2, f3⟩ := fold_registry ops (initState c) id
  refine ⟨f1, f2, f3, ?_⟩
  intro s tid qu hd oe conc hhas
  unfold registerTask
  dsimp only
  rw [if_neg (by simp [hhas])]
  exact ⟨rfl, rfl⟩

/-- Witness for C7 (amended): re-registering `a.x` overwrites its handler
(7 wins over 1) while the existing consumer set is untouched. -/
theorem registerTask_last_write_wins_witness :
    mapGet (applyOps true [Op.start,
        Op.register "a.x" "a" 1 none (some 2),
        Op.register "a.x" "a" 7 none (some 9)]).taskHandlers "a.x" =
      lastHandler [Op.start,
        Op.register "a.x" "a" 1 none (some 2),
        Op.register "a.x" "a" 7 none (some 9)] "a.x" none ∧
    (registerTask (applyOps true [Op.start,
        Op.register "a.x" "a" 1 none (some 2)]) "a.x" "a" 7 none (some 9)).workers =
      (applyOps true [Op.start, Op.register "a.x" "a" 1 none (some 2)]).workers :=
  ⟨(registerTask_last_write_wins true [Op.start,
      Op.register "a.x" "a" 1 none (some 2),
      Op.register "a.x" "a" 7 none (some 9)] "a.x").1,
   ((registerTask_last_write_wins true [] "a.x").2.2.2
      (applyOps true [Op.start, Op.register "a.x" "a" 1 none (some 2)])
      "a.x" "a" 7 none (some 9) (by decide)).1⟩

/-- Counterexample for C8 as stated: stop() does not release the shared
broker connection — after configure+start+stop the shared connection
still exists and the engine's connection reference is still set, though
the engine is back to not-started. -/
theorem stop_not_release_shared_connection :
    (applyOps true [Op.start, Op.stop]).sharedConn = true ∧
    (applyOps true [Op.start, Op.stop]).redis = true ∧
    (applyOps true [Op.start, Op.stop]).isStarted = false := by
  exact ⟨by decide, by decide, by decide⟩

/-- C8 (amended): stop() closes every live Consumer, clears the consumer
map and resets the started flag — leaving the shared broker connection
untouched — after which start() may run again; stop() on the never-started
initial state is a no-op. -/
theorem stop_closes_all_and_resets (c : Bool) (ops : List Op) :
    (stopEngine (applyOps c ops)).live = [] ∧
    (stopEngine (applyOps c ops)).workers = [] ∧
    (stopEngine (applyOps c ops)).isStarted = false ∧
    (stopEngine (applyOps c ops)).sharedConn = (applyOps c ops).sharedConn ∧
    (stopEngine (applyOps c ops)).taskHandlers = (applyOps c ops).taskHandlers ∧
    stopEngine (initState c) = initState c ∧
    (c = true → (startEngine (stopEngine (applyOps c ops))).isStarted = true) := by
  have h := engineInv_applyOps c ops
  have hlive : (stopEngine (applyOps c ops)).live = [] := by
    unfold stopEngine
    dsimp only
    rw [List.filter_eq_nil_iff]
    intro x hx
    rw [h.live_eq] at hx
    simp [hx]
  refine ⟨hlive, rfl, rfl, rfl, rfl, rfl, ?_⟩
  intro hc
  apply startEngine_restarts
  show (applyOps c ops).configured = true
  rw [applyOps_configured, hc]

/-- Witness for C8 (amended): after registering a task and starting, stop
leaves no live consumer, resets the started flag, and start() succeeds
again. -/
theorem stop_closes_all_and_resets_witness :
    (stopEngine (applyOps true [Op.register "email.welcome" "email" 1 none none,
        Op.start])).live = [] ∧
    (stopEngine (applyOps true [Op.register "email.welcome" "email" 1 none none,
        Op.start])).isStarted = false ∧
    (startEngine (stopEngine (applyOps true
        [Op.register "email.welcome" "email" 1 none none,
        Op.start]))).isStarted = true :=
  ⟨(stop_closes_all_and_resets true
      [Op.register "email.welcome" "email" 1 none none, Op.start]).1,
   (stop_closes_all_and_resets true
      [Op.register "email.welcome" "email" 1 none none, Op.start]).2.2.1,
   (stop_closes_all_and_resets true
      [Op.register "email.welcome" "email" 1 none none, Op.start]).2.2.2.2.2.2 rfl⟩

/-- C9: when no broker connection has been configured, every
connection-dependent operation fails fast with a configuration error:
obtaining the shared connection and creating a producer connection throw
the configuration error, creating a Per-Queue Consumer throws, and
start() leaves the state unchanged — no retry and no fallback
connection. -/
theorem unconfigured_operations_fail_fast (s : EngineState) (q : String)
    (conc : Option Nat) (hcfg : s.configured = false)
    (hsh : s.sharedConn = false) (hred : s.redis = false)
    (hns : s.isStarted = false) :
    getSharedRedisConnection s.configured s.sharedConn = Except.error
      "Redis connection not configured. Please call configure() with a connection setting first." ∧
    createRedisConnection s.configured = Except.error
      "Redis connection not configured. Please call configure() with a connection setting first." ∧
    createQueueWorker s q conc = Except.error
      "Redis connection not available. Please call configure() first." ∧
    startEngine s = s := by
  have h1 : getSharedRedisConnection s.configured s.sharedConn = Except.error
      "Redis connection not configured. Please call configure() with a connection setting first." := by
    rw [hcfg, hsh]
    rfl
  refine ⟨h1, by rw [hcfg]; rfl, by simp [createQueueWorker, hred], ?_⟩
  unfold startEngine
  rw [if_neg (by rw [hns]; simp), h1]

/-- Witness for C9 at the unconfigured initial state. -/
theorem unconfigured_operations_fail_fast_witness :
    getSharedRedisConnection (initState false).configured
      (initState false).sharedConn = Except.error
      "Redis connection not configured. Please call configure() with a connection setting first." ∧
    createRedisConnection (initState false).configured = Except.error
      "Redis connection not configured. Please call configure() with a connection setting first." ∧
    createQueueWorker (initState false) "email" none = Except.error
      "Redis connection not available. Please call configure() first." ∧
    startEngine (initState false) = initState false :=
  unconfigured_operations_fail_fast (initState false) "email" none rfl rfl rfl rfl

end Queueflow
